import Mathlib

set_option maxHeartbeats 1000000

namespace DocVerifier

/-! Shallow embedding of the Agentic Document Verifier.

The HTTP layer is embedded from app/src/app/api/verify/route.ts and the
shared types from app/src/types/index.ts.  The core verification engine
(app/src/lib/document.ts, exposed as verifyDocuments / evaluate) is not
part of the available sources, so its operations are modelled from the
specification; every such definition carries a doc comment starting with
"Modelled from the spec:". -/

/-! ## ICAO 9303 checksum (spec 4.2) -/

/-- Modelled from the spec: numeric value of an MRZ character — digits as
their value, letters A to Z as 10 to 35, filler and anything else as 0. -/
def charValue (c : Char) : Nat :=
  if c.isDigit then c.toNat - 48
  else if 'A' ≤ c ∧ c ≤ 'Z' then c.toNat - 55
  else 0

/-- Modelled from the spec: the cyclic weight pattern 7, 3, 1 repeating
from the first character. -/
def weightAt (i : Nat) : Nat :=
  match i % 3 with
  | 0 => 7
  | 1 => 3
  | _ => 1

/-- Modelled from the spec: weighted sum of the characters starting at
index i with the cyclic 7, 3, 1 weights. -/
def weightedSum : List Char → Nat → Nat
  | [], _ => 0
  | c :: cs, i => charValue c * weightAt i + weightedSum cs (i + 1)

/-- Modelled from the spec: the check digit of a character sequence is the
weighted sum mod 10. -/
def checkDigit (s : String) : Nat := weightedSum s.toList 0 % 10

/-- A digit-bearing segment of an MRZ block together with its claimed
check-digit character, as validated by the MRZ Field Decoder. -/
structure ChecksumSegment where
  name : String
  data : String
  check : Char
deriving DecidableEq, Repr

/-- Modelled from the spec: a segment validates when its claimed check
digit equals the computed check digit of its data. -/
def segmentValid (s : ChecksumSegment) : Bool :=
  checkDigit s.data == charValue s.check

/-- Modelled from the spec: the issue string naming a failed segment. -/
def checksumIssue (s : ChecksumSegment) : String :=
  s.name ++ " check digit mismatch"

/-- Modelled from the spec: checksumValid is true only if every defined
check digit in the block matches. -/
def blockChecksumValid (segs : List ChecksumSegment) : Bool :=
  segs.all segmentValid

/-- Modelled from the spec: one issue string is recorded for every
segment whose check digit fails. -/
def blockChecksumIssues (segs : List ChecksumSegment) : List String :=
  (segs.filter (fun s => ! segmentValid s)).map checksumIssue

/-- C1: each defined check digit is validated by the ICAO 9303 algorithm
(digits as themselves, A to Z as 10 to 35, filler as 0, cyclic weights
7, 3, 1, check digit = sum mod 10); checksumValid holds iff every defined
check digit matches, and any single mismatch makes it false and records
an issue string naming the failed segment. -/
theorem mrz_checksum_validation (segs : List ChecksumSegment) :
    (blockChecksumValid segs = true ↔
      ∀ s ∈ segs, checkDigit s.data = charValue s.check) ∧
    (∀ s ∈ segs, checkDigit s.data ≠ charValue s.check →
      blockChecksumValid segs = false ∧
        checksumIssue s ∈ blockChecksumIssues segs) := by
  constructor
  · simp [blockChecksumValid, List.all_eq_true, segmentValid]
  · intro s hs hne
    constructor
    · simp only [blockChecksumValid]
      rw [List.all_eq_false]
      exact ⟨s, hs, by simp [segmentValid, hne]⟩
    · simp only [blockChecksumIssues, List.mem_map]
      refine ⟨s, ?_, rfl⟩
      simp only [List.mem_filter]
      exact ⟨hs, by simp [segmentValid, hne]⟩

/-- Concrete instance of C1: the segment data 123456789 has check digit 7,
so a claimed check digit 0 fails and records its issue. -/
theorem mrz_checksum_validation_witness :
    blockChecksumValid [⟨"documentNumber", "123456789", '0'⟩] = false ∧
    checksumIssue ⟨"documentNumber", "123456789", '0'⟩ ∈
      blockChecksumIssues [⟨"documentNumber", "123456789", '0'⟩] :=
  (mrz_checksum_validation [⟨"documentNumber", "123456789", '0'⟩]).2
    ⟨"documentNumber", "123456789", '0'⟩ (by simp) (by decide)

/-! ## Data model (app/src/types/index.ts) -/

/-- Provenance of an extracted field, from the source union type. -/
inductive FieldSource
  | ocr
  | mrz
  | barcode
  | inferred
  | manual
  | unknown
deriving DecidableEq, Repr

/-- One extracted identity field with provenance and confidence; issues is
optional in the source and modelled as a list that defaults to empty. -/
structure ExtractedField where
  label : String
  value : Option String
  confidence : Nat
  source : FieldSource
  issues : List String
deriving DecidableEq, Repr

/-- Supported MRZ formats, from the format union type. -/
inductive MrzFormat
  | TD1
  | TD2
  | TD3
  | MRVA
  | MRVB
  | FRENCH_NATIONAL_ID
  | FRENCH_DRIVING_LICENSE
  | SWISS_DRIVING_LICENSE
  | unknown
deriving DecidableEq, Repr

/-- The MRZ decoding result; the Record of fields is modelled as an
association list keyed by the stable field identifier. -/
structure MrzResult where
  format : MrzFormat
  fields : List (String × ExtractedField)
  checksumValid : Bool
deriving DecidableEq, Repr

/-- Status of one validation check. -/
inductive CheckStatus
  | pass
  | fail
  | warning
  | unknown
deriving DecidableEq, Repr

/-- One validation check outcome. -/
structure ValidationCheck where
  id : String
  label : String
  status : CheckStatus
  details : String
  confidence : Nat
deriving DecidableEq, Repr

/-- Status of the eligibility decision. -/
inductive EligStatus
  | approved
  | manual_review
  | rejected
  | unknown
deriving DecidableEq, Repr

/-- The eligibility decision derived from the check sequence. -/
structure EligibilityDecision where
  status : EligStatus
  reasons : List String
  confidence : Nat
deriving DecidableEq, Repr

/-- The applicant profile supplied by the caller. -/
structure ApplicantProfile where
  name : String
  dateOfBirth : String
  passportNumber : String
  nationality : String
  visaType : String
  intendedTravelDate : String
deriving DecidableEq, Repr

/-- The caller-supplied eligibility policy. -/
structure EligibilityPolicy where
  minPassportValidityDays : Nat
  minApplicantAge : Nat
  supportedVisaTypes : List String
  blacklistedNationalities : List String
  requireNameMatch : Bool
  requirePassportMatch : Bool
deriving DecidableEq, Repr

/-- Decoded barcode payload attached to the response. -/
structure BarcodeData where
  raw : Option String
deriving DecidableEq, Repr

/-- The aggregate response contract returned by the engine. -/
structure VerificationResponse where
  summary : String
  overallConfidence : Nat
  extractedFields : List (String × ExtractedField)
  mrz : Option MrzResult
  barcodeData : Option BarcodeData
  validationChecks : List ValidationCheck
  eligibility : EligibilityDecision
  recommendedActions : List String
  rawOcrText : String
  timingMs : Nat
deriving DecidableEq, Repr

/-! ## Eligibility Decision Maker (spec 4.6) -/

/-- Modelled from the spec: the minimum confidence across all checks,
computed as a fold starting from 100 so that an empty sequence does not
count as low confidence. -/
def minConfidence (checks : List ValidationCheck) : Nat :=
  checks.foldl (fun m c => min m c.confidence) 100

/-- Modelled from the spec: the average of the confidences rounded to the
nearest integer; the spec does not fix the behaviour at exact halves and
this model rounds halves up. -/
def roundedAvg (xs : List Nat) : Nat :=
  if xs.length = 0 then 0
  else (2 * xs.foldl (fun a b => a + b) 0 + xs.length) / (2 * xs.length)

/-- Modelled from the spec: whether a check failed. -/
def isFail (c : ValidationCheck) : Bool :=
  match c.status with
  | CheckStatus.fail => true
  | _ => false

/-- Modelled from the spec: whether a check is a warning or unknown, the
conditions that route the decision to manual review. -/
def needsAttention (c : ValidationCheck) : Bool :=
  match c.status with
  | CheckStatus.warning => true
  | CheckStatus.unknown => true
  | _ => false

/-- Modelled from the spec: the low-confidence note appended to the
manual-review reasons when applicable. -/
def lowConfidenceNote : String := "Low confidence in automated checks"

/-- Modelled from the spec: the state machine over the completed check
sequence producing the terminal eligibility decision. -/
def decideEligibility (checks : List ValidationCheck) : EligibilityDecision :=
  if checks.isEmpty then
    { status := EligStatus.unknown, reasons := [], confidence := 0 }
  else
    let conf := roundedAvg (checks.map (fun c => c.confidence))
    if checks.any isFail then
      { status := EligStatus.rejected
        reasons := (checks.filter isFail).map (fun c => c.label)
        confidence := conf }
    else if checks.any needsAttention || minConfidence checks < 60 then
      { status := EligStatus.manual_review
        reasons := (checks.filter needsAttention).map (fun c => c.label) ++
          (if minConfidence checks < 60 then [lowConfidenceNote] else [])
        confidence := conf }
    else
      { status := EligStatus.approved, reasons := [], confidence := conf }

/-- C2: the decision is a deterministic function of the check sequence —
any failing check gives rejected with the failing labels as reasons; else
any warning or unknown check, or minimum confidence below 60, gives
manual review; else approved with empty reasons; an empty sequence gives
unknown; and the decision confidence is the rounded average of the check
confidences. -/
theorem eligibility_decision_rules (checks : List ValidationCheck) :
    (checks = [] → (decideEligibility checks).status = EligStatus.unknown) ∧
    (checks ≠ [] →
      ((∃ c ∈ checks, c.status = CheckStatus.fail) →
        (decideEligibility checks).status = EligStatus.rejected ∧
        (decideEligibility checks).reasons =
          (checks.filter isFail).map (fun c => c.label)) ∧
      ((∀ c ∈ checks, c.status ≠ CheckStatus.fail) →
        (((∃ c ∈ checks,
            c.status = CheckStatus.warning ∨ c.status = CheckStatus.unknown) ∨
            minConfidence checks < 60) →
          (decideEligibility checks).status = EligStatus.manual_review) ∧
        ((∀ c ∈ checks, c.status = CheckStatus.pass) → 60 ≤ minConfidence checks →
          (decideEligibility checks).status = EligStatus.approved ∧
          (decideEligibility checks).reasons = [])) ∧
      (decideEligibility checks).confidence =
        roundedAvg (checks.map (fun c => c.confidence))) := by
  refine ⟨?_, ?_⟩
  · intro h
    subst h
    rfl
  · intro hne
    have hne' : checks.isEmpty = false := by
      cases checks with
      | nil => exact absurd rfl hne
      | cons a l => rfl
    refine ⟨?_, ?_, ?_⟩
    · rintro ⟨c, hc, hcf⟩
      have hfail : checks.any isFail = true := by
        rw [List.any_eq_true]
        exact ⟨c, hc, by simp [isFail, hcf]⟩
      simp [decideEligibility, hne', hfail]
    · intro hnofail
      have hfail : checks.any isFail = false := by
        rw [List.any_eq_false]
        intro c hc
        have hcn := hnofail c hc
        cases h : c.status with
        | fail => exact absurd h hcn
        | pass => simp [isFail, h]
        | warning => simp [isFail, h]
        | unknown => simp [isFail, h]
      refine ⟨?_, ?_⟩
      · intro hcond
        have hor : checks.any needsAttention = true ∨ minConfidence checks < 60 := by
          rcases hcond with ⟨c, hc, hco⟩ | hlow
          · left
            rw [List.any_eq_true]
            refine ⟨c, hc, ?_⟩
            rcases hco with h | h <;> simp [needsAttention, h]
          · right
            exact hlow
        rcases hor with h | h
        · simp [decideEligibility, hne', hfail, h]
        · simp [decideEligibility, hne', hfail, h]
      · intro hpass hconf
        have hatt : checks.any needsAttention = false := by
          rw [List.any_eq_false]
          intro c hc
          simp [needsAttention, hpass c hc]
        have hlow : ¬ (minConfidence checks < 60) := by omega
        simp [decideEligibility, hne', hfail, hatt, hlow]
    · by_cases hfail : checks.any isFail = true
      · simp [decideEligibility, hne', hfail]
      · have hf : checks.any isFail = false := by
          simpa using hfail
        by_cases hatt : checks.any needsAttention = true
        · simp [decideEligibility, hne', hf, hatt]
        · have ha : checks.any needsAttention = false := by
            simpa using hatt
          by_cases hlow : minConfidence checks < 60
          · simp [decideEligibility, hne', hf, ha, hlow]
          · simp [decideEligibility, hne', hf, ha, hlow]

/-- Concrete instance of C2: a single failing check yields a rejected
decision whose reasons are the failing labels. -/
theorem eligibility_decision_rules_witness :
    (decideEligibility
      [⟨"visa_type_supported", "Visa type supported", CheckStatus.fail,
        "visa type not supported", 80⟩]).status = EligStatus.rejected ∧
    (decideEligibility
      [⟨"visa_type_supported", "Visa type supported", CheckStatus.fail,
        "visa type not supported", 80⟩]).reasons =
      ([(⟨"visa_type_supported", "Visa type supported", CheckStatus.fail,
        "visa type not supported", 80⟩ : ValidationCheck)].filter isFail).map
        (fun c => c.label) :=
  ((eligibility_decision_rules
      [⟨"visa_type_supported", "Visa type supported", CheckStatus.fail,
        "visa type not supported", 80⟩]).2 (by simp)).1
    ⟨_, List.mem_singleton_self _, rfl⟩

/-! ## Field Reconciler (spec 4.4) -/

/-- Human-readable name of a field source, used in conflict issues. -/
def sourceName : FieldSource → String
  | FieldSource.ocr => "ocr"
  | FieldSource.mrz => "mrz"
  | FieldSource.barcode => "barcode"
  | FieldSource.inferred => "inferred"
  | FieldSource.manual => "manual"
  | FieldSource.unknown => "unknown"

/-- Modelled from the spec: case and whitespace insensitive normalization
used to compare candidate values during reconciliation. -/
def normalizeValue (s : String) : String :=
  String.intercalate " " ((s.toLower.splitOn " ").filter (fun t => t ≠ ""))

/-- Normalization lifted to optional values. -/
def normOpt (v : Option String) : Option String := v.map normalizeValue

/-- Modelled from the spec: the agreement boost min(100, max source
confidence + 10). -/
def boostConfidence (a b : Nat) : Nat := min 100 (max a b + 10)

/-- Modelled from the spec: one fall-through step of the reconciler — the
lower-priority candidate is taken only when the higher one is absent, or
present but checksum-invalid with the lower confidence at least the
higher confidence.  Each candidate is paired with the validity of the
checksum covering it; sources without a checksum count as valid. -/
def fallthroughStep :
    Option (ExtractedField × Bool) → Option (ExtractedField × Bool) →
      Option (ExtractedField × Bool)
  | none, lo => lo
  | some hi, none => some hi
  | some hi, some lo =>
      if ! hi.2 && decide (hi.1.confidence ≤ lo.1.confidence) then some lo
      else some hi

/-- One fold step of the candidate selection. -/
def selectStep (acc : Option (ExtractedField × Bool))
    (c : ExtractedField × Bool) : Option (ExtractedField × Bool) :=
  fallthroughStep acc (some c)

/-- Modelled from the spec: select one candidate from the candidate list
ordered by strict source priority (mrz, then barcode, then ocr, then
inferred). -/
def selectCandidate (cands : List (ExtractedField × Bool)) :
    Option (ExtractedField × Bool) :=
  cands.foldl selectStep none

/-- Modelled from the spec: merge the candidates for one field identifier
into the authoritative field — select by priority with checksum-gated
fall-through; boost confidence when another source agrees on the
normalized value; keep the selected value and append an issue for each
disagreeing source; emit a null unknown field when no source produced a
candidate. -/
def reconcileField (fid : String) (cands : List (ExtractedField × Bool)) :
    ExtractedField :=
  match selectCandidate cands with
  | none =>
      { label := fid, value := none, confidence := 0,
        source := FieldSource.unknown, issues := [] }
  | some sel =>
      let f := sel.1
      let others :=
        (cands.map (fun c => c.1)).filter (fun g => decide (g.source ≠ f.source))
      let agreeing := others.filter (fun g => normOpt g.value == normOpt f.value)
      let disagreeing := others.filter (fun g => normOpt g.value != normOpt f.value)
      let conf :=
        if agreeing.isEmpty then f.confidence
        else boostConfidence f.confidence
          (agreeing.foldl (fun m g => max m g.confidence) 0)
      { label := f.label
        value := f.value
        confidence := conf
        source := f.source
        issues := f.issues ++ disagreeing.map (fun g =>
          "Conflicting value from " ++ sourceName g.source) }

/-- C3: reconciliation is priority-stable — a checksum-valid MRZ candidate
beats a conflicting OCR candidate at every OCR confidence level, and a
lower-priority source is selected only when the higher one is absent, or
present but checksum-invalid with the lower confidence at least the
higher confidence. -/
theorem reconciliation_priority_stable :
    (∀ (fid : String) (m o : ExtractedField) (vo : Bool),
      m.source = FieldSource.mrz → o.source = FieldSource.ocr →
      (reconcileField fid [(m, true), (o, vo)]).value = m.value) ∧
    (∀ o : ExtractedField, selectCandidate [(o, true)] = some (o, true)) ∧
    (∀ m o : ExtractedField,
      selectCandidate [(m, true), (o, true)] = some (m, true)) ∧
    (∀ m o : ExtractedField,
      selectCandidate [(m, false), (o, true)] = some (o, true) ↔
        m.confidence ≤ o.confidence) := by
  refine ⟨?_, ?_, ?_, ?_⟩
  · intro fid m o vo hm ho
    simp [reconcileField, selectCandidate, selectStep, fallthroughStep]
  · intro o
    simp [selectCandidate, selectStep, fallthroughStep]
  · intro m o
    simp [selectCandidate, selectStep, fallthroughStep]
  · intro m o
    by_cases h : m.confidence ≤ o.confidence
    · simp [selectCandidate, selectStep, fallthroughStep, h]
    · simp [selectCandidate, selectStep, fallthroughStep, h]

/-- Concrete instance of C3: a checksum-valid MRZ document number beats a
conflicting OCR value even at higher OCR confidence, and an invalid MRZ
candidate falls through to an OCR candidate of equal confidence. -/
theorem reconciliation_priority_stable_witness :
    (reconcileField "documentNumber"
      [(⟨"documentNumber", some "X1234567", 100, FieldSource.mrz, []⟩, true),
       (⟨"documentNumber", some "Y9999999", 100, FieldSource.ocr, []⟩, true)]).value =
      (⟨"documentNumber", some "X1234567", 100, FieldSource.mrz, []⟩ :
        ExtractedField).value ∧
    (selectCandidate
      [(⟨"documentNumber", some "X1234567", 60, FieldSource.mrz, []⟩, false),
       (⟨"documentNumber", some "Y9999999", 60, FieldSource.ocr, []⟩, true)] =
      some (⟨"documentNumber", some "Y9999999", 60, FieldSource.ocr, []⟩, true)) :=
  ⟨reconciliation_priority_stable.1 "documentNumber" _ _ true rfl rfl,
   (reconciliation_priority_stable.2.2.2 _ _).mpr (by decide)⟩

/-! ## MRZ Field Decoder (spec 4.2) -/

/-- Modelled from the spec: checksum-gated confidence of an MRZ field —
100 when the covering checksum is valid and 40 (within the mandated
bound of at most 40) when it is invalid. -/
def mrzFieldConfidence (valid : Bool) : Nat := if valid then 100 else 40

/-- Modelled from the spec: build one MRZ-sourced field; the decoded value
is kept whether or not the covering checksum validates, and an invalid
covering checksum records an issue on the field. -/
def mkMrzField (fid v : String) (valid : Bool) : ExtractedField :=
  { label := fid
    value := some v
    confidence := mrzFieldConfidence valid
    source := FieldSource.mrz
    issues := if valid then [] else [fid ++ " covered by failed checksum"] }

/-- The len characters of a string starting at index start. -/
def slice (s : String) (start len : Nat) : String :=
  ((s.toList.drop start).take len).asString

/-- The character at an index, with the filler as the out-of-range
default. -/
def charAt (s : String) (i : Nat) : Char :=
  match s.toList.drop i with
  | c :: _ => c
  | [] => '<'

/-- Modelled from the spec: trim the filler character, mapping interior
filler to single spaces and dropping the padding. -/
def trimFiller (s : String) : String :=
  String.intercalate " " ((s.splitOn "<").filter (fun t => t ≠ ""))

/-- Modelled from the spec: decode a TD3 block by slicing the two 44
character lines into the fixed zones named in the spec (document type,
issuing state, name, document number, nationality, birth date, sex,
expiry date, personal number, composite check digit), validating the
document-number, birth-date, expiry-date, personal-number and composite
check digits; fields not covered by an individual check digit carry the
block-level validity. -/
def decodeTD3 (l1 l2 : String) : MrzResult :=
  let docNum := slice l2 0 9
  let dob := slice l2 13 6
  let expiry := slice l2 21 6
  let personal := slice l2 28 14
  let docNumSeg : ChecksumSegment := ⟨"documentNumber", docNum, charAt l2 9⟩
  let dobSeg : ChecksumSegment := ⟨"dateOfBirth", dob, charAt l2 19⟩
  let expirySeg : ChecksumSegment := ⟨"expiryDate", expiry, charAt l2 27⟩
  let personalSeg : ChecksumSegment := ⟨"personalNumber", personal, charAt l2 42⟩
  let compositeSeg : ChecksumSegment :=
    ⟨"composite", slice l2 0 10 ++ slice l2 13 7 ++ slice l2 21 22, charAt l2 43⟩
  let segs := [docNumSeg, dobSeg, expirySeg, personalSeg, compositeSeg]
  let valid := blockChecksumValid segs
  let names := slice l1 5 39
  let surname := trimFiller ((names.splitOn "<<").headD "")
  let given := trimFiller (String.intercalate "<" ((names.splitOn "<<").drop 1))
  { format := MrzFormat.TD3
    fields :=
      [("documentType", mkMrzField "documentType" (trimFiller (slice l1 0 2)) valid),
       ("issuingState", mkMrzField "issuingState" (trimFiller (slice l1 2 3)) valid),
       ("surname", mkMrzField "surname" surname valid),
       ("givenNames", mkMrzField "givenNames" given valid),
       ("documentNumber",
         mkMrzField "documentNumber" (trimFiller docNum) (segmentValid docNumSeg)),
       ("nationality",
         mkMrzField "nationality" (trimFiller (slice l2 10 3)) valid),
       ("dateOfBirth", mkMrzField "dateOfBirth" dob (segmentValid dobSeg)),
       ("sex", mkMrzField "sex" (trimFiller (slice l2 20 1)) valid),
       ("expiryDate", mkMrzField "expiryDate" expiry (segmentValid expirySeg)),
       ("personalNumber",
         mkMrzField "personalNumber" (trimFiller personal)
           (segmentValid personalSeg))]
    checksumValid := valid }

/-! ## MRZ Line Locator and Format Classifier (spec 4.1) -/

/-- Modelled from the spec: a character of the MRZ alphabet. -/
def isMrzChar (c : Char) : Bool :=
  c.isDigit || (decide ('A' ≤ c) && decide (c ≤ 'Z')) || c == '<'

/-- Modelled from the spec: a nonempty line composed only of the MRZ
alphabet. -/
def isMrzLine (l : String) : Bool :=
  decide (0 < l.length) && l.toList.all isMrzChar

/-- Take the leading run of MRZ-shaped lines and return it with the
remaining lines. -/
def takeRun : List String → List String × List String
  | [] => ([], [])
  | l :: ls =>
    if isMrzLine l then
      let r := takeRun ls
      (l :: r.1, r.2)
    else ([], l :: ls)

theorem takeRun_snd_length (ls : List String) :
    (takeRun ls).2.length ≤ ls.length := by
  induction ls with
  | nil => simp [takeRun]
  | cons l ls ih =>
    by_cases h : isMrzLine l = true
    · simp only [takeRun, h, if_true]
      exact Nat.le_trans ih (Nat.le_succ _)
    · simp [takeRun, h]

/-- Modelled from the spec: the maximal contiguous runs of MRZ-shaped
lines in the OCR text. -/
def mrzRuns : List String → List (List String)
  | [] => []
  | l :: ls =>
    if isMrzLine l then
      (l :: (takeRun ls).1) :: mrzRuns (takeRun ls).2
    else mrzRuns ls
termination_by ls => ls.length
decreasing_by
  · exact Nat.lt_succ_of_le (takeRun_snd_length ls)
  · exact Nat.lt_succ_self ls.length

/-- Modelled from the spec: classify a run by its line-length signature —
TD3 and MRVA are 2 by 44, TD2 and MRVB are 2 by 36 (the visa formats
discriminated by a leading V), TD1 is 3 by 30; the spec gives no length
signature for the three country-specific layouts, so this model does not
produce them. -/
def classifyRun (run : List String) : MrzFormat :=
  match run with
  | [a, b] =>
    if a.length = 44 ∧ b.length = 44 then
      if charAt a 0 = 'V' then MrzFormat.MRVA else MrzFormat.TD3
    else if a.length = 36 ∧ b.length = 36 then
      if charAt a 0 = 'V' then MrzFormat.MRVB else MrzFormat.TD2
    else MrzFormat.unknown
  | [a, b, c] =>
    if a.length = 30 ∧ b.length = 30 ∧ c.length = 30 then MrzFormat.TD1
    else MrzFormat.unknown
  | _ => MrzFormat.unknown

/-- Modelled from the spec: decode a classified run; the spec fixes the
zone table only for TD3, so the other classified formats decode to an
empty field map that is conservatively not checksum-validated. -/
def decodeRun (run : List String) : MrzResult :=
  match classifyRun run, run with
  | MrzFormat.TD3, [l1, l2] => decodeTD3 l1 l2
  | fmt, _ => { format := fmt, fields := [], checksumValid := false }

/-- Modelled from the spec: tie-break rank of the matched formats, TD3
over TD2 and MRVB over TD1 and MRVA. -/
def formatRank : MrzFormat → Nat
  | MrzFormat.TD3 => 3
  | MrzFormat.TD2 => 2
  | MrzFormat.MRVB => 2
  | MrzFormat.TD1 => 1
  | MrzFormat.MRVA => 1
  | _ => 0

/-- Modelled from the spec: prefer a run whose checksum validates, with
ties broken by the longest matched format. -/
def mrzScore (r : MrzResult) : Nat :=
  (if r.checksumValid then 10 else 0) + formatRank r.format

/-- One fold step of the best-run selection. -/
def pickStep (best : Option MrzResult) (r : MrzResult) : Option MrzResult :=
  match best with
  | none => some r
  | some b => if mrzScore b < mrzScore r then some r else some b

/-- Pick the best decoded run by score, keeping the earlier run on ties. -/
def pickBestMrz (rs : List MrzResult) : Option MrzResult :=
  rs.foldl pickStep none

/-- Contiguous windows of n lines within a run. -/
def windows (n : Nat) : List String → List (List String)
  | [] => []
  | l :: ls =>
    (if n ≤ (l :: ls).length then [(l :: ls).take n] else []) ++ windows n ls

/-- Modelled from the spec: the qualifying candidates of one document —
contiguous groups of two or three MRZ-shaped lines whose line lengths
match a supported format signature. -/
def qualifyingRuns (lines : List String) : List (List String) :=
  (((mrzRuns lines).map (fun run => windows 2 run ++ windows 3 run)).flatten).filter
    (fun run => decide (classifyRun run ≠ MrzFormat.unknown))

/-- Modelled from the spec: locate, classify and decode the MRZ block of
one document from its OCR lines; the OCR-confusion normalization of the
spec is not modelled.  No qualifying run gives no block, which downstream
stages treat as the absent MRZ case. -/
def locateMrz (lines : List String) : Option MrzResult :=
  pickBestMrz ((qualifyingRuns lines).map decodeRun)

/-! ## Dates -/

/-- A calendar date used by the validation rules. -/
structure CivilDate where
  year : Int
  month : Nat
  day : Nat
deriving DecidableEq, Repr

/-- Day number of a civil date in the proleptic Gregorian calendar. -/
def daysFromCivil (dt : CivilDate) : Int :=
  let y : Int := if dt.month ≤ 2 then dt.year - 1 else dt.year
  let era : Int := (if 0 ≤ y then y else y - 399) / 400
  let yoe : Int := y - era * 400
  let mp : Nat := (dt.month + 9) % 12
  let doy : Int := (153 * (mp : Int) + 2) / 5 + (dt.day : Int) - 1
  let doe : Int := yoe * 365 + yoe / 4 - yoe / 100 + doy
  era * 146097 + doe - 719468

/-- Parse an ISO date of the shape YYYY-MM-DD. -/
def parseIsoDate (s : String) : Option CivilDate :=
  match (s.splitOn "-").map String.toNat? with
  | [some y, some m, some d] =>
    if 1 ≤ m ∧ m ≤ 12 ∧ 1 ≤ d ∧ d ≤ 31 then some ⟨Int.ofNat y, m, d⟩ else none
  | _ => none

/-- Parse a slash date of the shape DD/MM/YYYY. -/
def parseSlashDate (s : String) : Option CivilDate :=
  match (s.splitOn "/").map String.toNat? with
  | [some d, some m, some y] =>
    if 1 ≤ m ∧ m ≤ 12 ∧ 1 ≤ d ∧ d ≤ 31 then some ⟨Int.ofNat y, m, d⟩ else none
  | _ => none

/-- Modelled from the spec: parse an MRZ date of the shape YYMMDD; the
spec does not fix the century window, and this model maps two-digit
years up to 30 to the 2000s and the rest to the 1900s. -/
def parseMrzDate (s : String) : Option CivilDate :=
  match (slice s 0 2).toNat?, (slice s 2 2).toNat?, (slice s 4 2).toNat? with
  | some yy, some mm, some dd =>
    if s.length = 6 ∧ 1 ≤ mm ∧ mm ≤ 12 ∧ 1 ≤ dd ∧ dd ≤ 31 then
      some ⟨Int.ofNat (if yy ≤ 30 then 2000 + yy else 1900 + yy), mm, dd⟩
    else none
  | _, _, _ => none

/-- Modelled from the spec: parse a date in any of the recognized shapes,
ISO first, then slashed, then the MRZ shape. -/
def parseAnyDate (s : String) : Option CivilDate :=
  match parseIsoDate s with
  | some d => some d
  | none =>
    match parseSlashDate s with
    | some d => some d
    | none => parseMrzDate s

/-- Age in completed years at a reference date. -/
def ageAt (dob travel : CivilDate) : Int :=
  travel.year - dob.year -
    (if travel.month < dob.month ∨ (travel.month = dob.month ∧ travel.day < dob.day)
     then 1 else 0)

/-! ## Free-Text Field Extractor (spec 4.3) -/

/-- Modelled from the spec: the per-document input the core consumes —
OCR text lines, optional per-token OCR confidences (an empty map when
unavailable), and optional pre-decoded barcode text. -/
structure DocumentInput where
  ocrText : List String
  ocrTokenConfidences : List (String × Nat)
  decodedBarcodeText : Option String
deriving DecidableEq, Repr

/-- Strip a leading separator after a matched label. -/
def stripColon (s : String) : String :=
  ((s.toList.dropWhile (fun c => c == ':' || c == ' ')).asString).trim

/-- The remainder of a line after the first occurrence of a label
synonym, when the synonym occurs and leaves a nonempty value. -/
def afterLabel (line syn : String) : Option String :=
  match line.toLower.splitOn syn with
  | [] => none
  | _ :: rest =>
    if rest.isEmpty then none
    else
      let v := stripColon (String.intercalate syn rest)
      if v = "" then none else some v

/-- Modelled from the spec: the label synonym sets searched
case-insensitively for each target field. -/
def fieldSynonyms : List (String × List String) :=
  [("surname", ["surname", "family name", "last name"]),
   ("givenNames", ["given names", "given name", "first name"]),
   ("documentNumber",
     ["passport number", "passport no", "document number", "document no"]),
   ("dateOfBirth", ["date of birth", "birth date", "dob"]),
   ("expiryDate", ["date of expiry", "expiry date", "expiration date"]),
   ("nationality", ["nationality"])]

/-- Modelled from the spec: label-match strength of an exact synonym
match; the spec orders exact over partial over positional without fixing
the numbers, and this model only produces exact matches. -/
def exactLabelStrength : Nat := 90

/-- Clamp a signal to the 0 to 100 scale. -/
def normalizeConf (n : Nat) : Nat := min n 100

/-- Modelled from the spec: OCR field confidence is the minimum of the
label-match strength and the OCR token confidence when available, each
normalized to 0 to 100. -/
def ocrConfidence (labelStrength : Nat) (tok : Option Nat) : Nat :=
  match tok with
  | some t => min (normalizeConf labelStrength) (normalizeConf t)
  | none => normalizeConf labelStrength

/-- Find the token confidence recorded for a value, when any. -/
def lookupConf (m : List (String × Nat)) (tok : String) : Option Nat :=
  (m.find? (fun p => p.1 == tok)).map (fun p => p.2)

/-- First defined image of a function over a list. -/
def findFirst {α β : Type} (f : α → Option β) : List α → Option β
  | [] => none
  | a :: as =>
    match f a with
    | some b => some b
    | none => findFirst f as

/-- Modelled from the spec: extract one field from one document by
label-anchored search over its OCR lines; no match produces no entry. -/
def ocrFieldFromDoc (doc : DocumentInput) (fid : String) (syns : List String) :
    Option ExtractedField :=
  findFirst (fun line =>
    findFirst (fun syn =>
      match afterLabel line syn with
      | some v =>
        some { label := fid
               value := some v
               confidence := ocrConfidence exactLabelStrength
                 (lookupConf doc.ocrTokenConfidences v)
               source := FieldSource.ocr
               issues := [] }
      | none => none) syns) doc.ocrText

/-! ## Pipeline wiring (spec 2, 4.4) -/

/-- The stable field identifiers the reconciler emits. -/
def fieldIds : List String :=
  ["documentType", "issuingState", "surname", "givenNames", "documentNumber",
   "nationality", "dateOfBirth", "sex", "expiryDate", "personalNumber"]

/-- Modelled from the spec: the single MRZ block used downstream, chosen
across all documents by the locator preference order. -/
def bestMrz (docs : List DocumentInput) : Option MrzResult :=
  pickBestMrz (docs.filterMap (fun d => locateMrz d.ocrText))

/-- The first OCR candidate for a field across the documents. -/
def ocrCandidate (docs : List DocumentInput) (fid : String) :
    Option ExtractedField :=
  match fieldSynonyms.find? (fun p => p.1 == fid) with
  | some p => findFirst (fun d => ocrFieldFromDoc d fid p.2) docs
  | none => none

/-- Look a field up in an association list of fields. -/
def lookupField (fields : List (String × ExtractedField)) (fid : String) :
    Option ExtractedField :=
  (fields.find? (fun p => p.1 == fid)).map (fun p => p.2)

/-- Modelled from the spec: the priority-ordered candidate list for one
field — the MRZ candidate gated by the block checksum, then the OCR
candidate; barcode decoding is stubbed upstream and contributes no
parsed fields, and no inferred candidates are produced. -/
def candidatesFor (mrz : Option MrzResult) (docs : List DocumentInput)
    (fid : String) : List (ExtractedField × Bool) :=
  (match mrz with
   | some r =>
     match lookupField r.fields fid with
     | some f => [(f, r.checksumValid)]
     | none => []
   | none => []) ++
  (match ocrCandidate docs fid with
   | some f => [(f, true)]
   | none => [])

/-- Modelled from the spec: reconcile every field identifier. -/
def reconcileAll (mrz : Option MrzResult) (docs : List DocumentInput) :
    List (String × ExtractedField) :=
  fieldIds.map (fun fid => (fid, reconcileField fid (candidatesFor mrz docs fid)))

/-! ## Validation Rule Engine (spec 4.5) -/

/-- The value and confidence of a reconciled field when it is present
with a non-null value. -/
def fieldValueConf (fields : List (String × ExtractedField)) (fid : String) :
    Option (String × Nat) :=
  match lookupField fields fid with
  | some f =>
    match f.value with
    | some v => some (v, f.confidence)
    | none => none
  | none => none

/-- Insert a string into a sorted list. -/
def insertSorted (s : String) : List String → List String
  | [] => [s]
  | t :: ts => if s ≤ t then s :: t :: ts else t :: insertSorted s ts

/-- Sort the tokens of a name. -/
def sortTokens (xs : List String) : List String :=
  xs.foldl (fun acc s => insertSorted s acc) []

/-- Modelled from the spec: case-insensitive and token-order-insensitive
name normalization; diacritics are outside the modelled alphabet. -/
def normalizeName (s : String) : String :=
  String.intercalate " "
    (sortTokens ((s.toLower.splitOn " ").filter (fun t => t ≠ "")))

/-- Minimum confidence over the fields of an MRZ block, 100 when it has
none. -/
def mrzFieldMinConf (r : MrzResult) : Nat :=
  (r.fields.map (fun p => p.2.confidence)).foldl min 100

/-- Modelled from the spec: the mrz_checksum check — fail when the block
is present with an invalid checksum, warning when no block was found. -/
def mrzChecksumCheck (mrz : Option MrzResult) : ValidationCheck :=
  match mrz with
  | none =>
    { id := "mrz_checksum", label := "MRZ checksum",
      status := CheckStatus.warning,
      details := "no MRZ block detected", confidence := 0 }
  | some r =>
    if r.checksumValid then
      { id := "mrz_checksum", label := "MRZ checksum",
        status := CheckStatus.pass,
        details := "all MRZ check digits match",
        confidence := mrzFieldMinConf r }
    else
      { id := "mrz_checksum", label := "MRZ checksum",
        status := CheckStatus.fail,
        details := "one or more MRZ check digits failed",
        confidence := mrzFieldMinConf r }

/-- Modelled from the spec: the passport_validity check — fail when the
expiry date minus the travel date is under the policy minimum, warning on
a low-confidence or unparseable expiry, unknown when the expiry field is
entirely absent; low confidence means under 60. -/
def passportValidityCheck (fields : List (String × ExtractedField))
    (a : ApplicantProfile) (p : EligibilityPolicy) : ValidationCheck :=
  match fieldValueConf fields "expiryDate" with
  | none =>
    { id := "passport_validity", label := "Passport validity",
      status := CheckStatus.unknown,
      details := "expiry date not extracted", confidence := 0 }
  | some pr =>
    if pr.2 < 60 then
      { id := "passport_validity", label := "Passport validity",
        status := CheckStatus.warning,
        details := "expiry date extracted with low confidence",
        confidence := pr.2 }
    else
      match parseAnyDate pr.1, parseIsoDate a.intendedTravelDate with
      | some expiry, some travel =>
        if (p.minPassportValidityDays : Int) ≤
            daysFromCivil expiry - daysFromCivil travel then
          { id := "passport_validity", label := "Passport validity",
            status := CheckStatus.pass,
            details := "expiry " ++ pr.1 ++ " meets the validity window",
            confidence := pr.2 }
        else
          { id := "passport_validity", label := "Passport validity",
            status := CheckStatus.fail,
            details := "expiry " ++ pr.1 ++ " is inside the validity window",
            confidence := pr.2 }
      | _, _ =>
        { id := "passport_validity", label := "Passport validity",
          status := CheckStatus.warning,
          details := "could not parse expiry or travel date",
          confidence := pr.2 }

/-- Modelled from the spec: the applicant_age check — fail when the age at
the travel date is below the policy minimum, warning on a low-confidence
or unparseable date of birth, unknown when it is absent. -/
def applicantAgeCheck (fields : List (String × ExtractedField))
    (a : ApplicantProfile) (p : EligibilityPolicy) : ValidationCheck :=
  match fieldValueConf fields "dateOfBirth" with
  | none =>
    { id := "applicant_age", label := "Applicant age",
      status := CheckStatus.unknown,
      details := "date of birth not extracted", confidence := 0 }
  | some pr =>
    if pr.2 < 60 then
      { id := "applicant_age", label := "Applicant age",
        status := CheckStatus.warning,
        details := "date of birth extracted with low confidence",
        confidence := pr.2 }
    else
      match parseAnyDate pr.1, parseIsoDate a.intendedTravelDate with
      | some dob, some travel =>
        if (p.minApplicantAge : Int) ≤ ageAt dob travel then
          { id := "applicant_age", label := "Applicant age",
            status := CheckStatus.pass,
            details := "age at travel date meets the minimum",
            confidence := pr.2 }
        else
          { id := "applicant_age", label := "Applicant age",
            status := CheckStatus.fail,
            details := "age at travel date is below the minimum",
            confidence := pr.2 }
      | _, _ =>
        { id := "applicant_age", label := "Applicant age",
          status := CheckStatus.warning,
          details := "could not parse date of birth or travel date",
          confidence := pr.2 }

/-- Modelled from the spec: the visa_type_supported check, a
case-insensitive membership test that consumes no extracted fields. -/
def visaTypeCheck (a : ApplicantProfile) (p : EligibilityPolicy) :
    ValidationCheck :=
  if p.supportedVisaTypes.any (fun s => s.toLower == a.visaType.toLower) then
    { id := "visa_type_supported", label := "Visa type supported",
      status := CheckStatus.pass,
      details := "visa type " ++ a.visaType ++ " is supported",
      confidence := 100 }
  else
    { id := "visa_type_supported", label := "Visa type supported",
      status := CheckStatus.fail,
      details := "visa type " ++ a.visaType ++ " is not supported",
      confidence := 100 }

/-- Modelled from the spec: the nationality_blacklist check, failing on
membership of the blacklist. -/
def nationalityBlacklistCheck (a : ApplicantProfile) (p : EligibilityPolicy) :
    ValidationCheck :=
  if p.blacklistedNationalities.any
      (fun s => s.toUpper == a.nationality.toUpper) then
    { id := "nationality_blacklist", label := "Nationality blacklist",
      status := CheckStatus.fail,
      details := "nationality " ++ a.nationality ++ " is blacklisted",
      confidence := 100 }
  else
    { id := "nationality_blacklist", label := "Nationality blacklist",
      status := CheckStatus.pass,
      details := "nationality " ++ a.nationality ++ " is not blacklisted",
      confidence := 100 }

/-- The document-side name, combining the surname and given-names fields
when present. -/
def documentName (fields : List (String × ExtractedField)) :
    Option (String × Nat) :=
  match fieldValueConf fields "surname", fieldValueConf fields "givenNames" with
  | some sp, some gp => some (sp.1 ++ " " ++ gp.1, min sp.2 gp.2)
  | some sp, none => some sp
  | none, some gp => some gp
  | none, none => none

/-- Modelled from the spec: the name_match check — a mismatch fails under
requireNameMatch and warns otherwise; an absent document name is
unknown. -/
def nameMatchCheck (fields : List (String × ExtractedField))
    (a : ApplicantProfile) (p : EligibilityPolicy) : ValidationCheck :=
  match documentName fields with
  | none =>
    { id := "name_match", label := "Name match",
      status := CheckStatus.unknown,
      details := "no document name extracted", confidence := 0 }
  | some pr =>
    if normalizeName pr.1 = normalizeName a.name then
      { id := "name_match", label := "Name match",
        status := CheckStatus.pass,
        details := "document name " ++ pr.1 ++ " matches " ++ a.name,
        confidence := pr.2 }
    else if p.requireNameMatch then
      { id := "name_match", label := "Name match",
        status := CheckStatus.fail,
        details := "document name " ++ pr.1 ++ " does not match " ++ a.name,
        confidence := pr.2 }
    else
      { id := "name_match", label := "Name match",
        status := CheckStatus.warning,
        details := "document name " ++ pr.1 ++ " does not match " ++ a.name,
        confidence := pr.2 }

/-- Modelled from the spec: the passport_number_match check — a mismatch
fails under requirePassportMatch and warns otherwise; an absent document
number is unknown. -/
def passportNumberMatchCheck (fields : List (String × ExtractedField))
    (a : ApplicantProfile) (p : EligibilityPolicy) : ValidationCheck :=
  match fieldValueConf fields "documentNumber" with
  | none =>
    { id := "passport_number_match", label := "Passport number match",
      status := CheckStatus.unknown,
      details := "no document number extracted", confidence := 0 }
  | some pr =>
    if pr.1.toUpper.trim = a.passportNumber.toUpper.trim then
      { id := "passport_number_match", label := "Passport number match",
        status := CheckStatus.pass,
        details := "document number " ++ pr.1 ++ " matches",
        confidence := pr.2 }
    else if p.requirePassportMatch then
      { id := "passport_number_match", label := "Passport number match",
        status := CheckStatus.fail,
        details := "document number " ++ pr.1 ++ " does not match",
        confidence := pr.2 }
    else
      { id := "passport_number_match", label := "Passport number match",
        status := CheckStatus.warning,
        details := "document number " ++ pr.1 ++ " does not match",
        confidence := pr.2 }

/-- Modelled from the spec: the deterministic ordered check sequence of
the rule table. -/
def runChecks (mrz : Option MrzResult) (fields : List (String × ExtractedField))
    (a : ApplicantProfile) (p : EligibilityPolicy) : List ValidationCheck :=
  [mrzChecksumCheck mrz,
   passportValidityCheck fields a p,
   applicantAgeCheck fields a p,
   visaTypeCheck a p,
   nationalityBlacklistCheck a p,
   nameMatchCheck fields a p,
   passportNumberMatchCheck fields a p]

/-! ## Recommended Actions and Report Assembler (spec 4.7, 4.6) -/

/-- Modelled from the spec: the fixed lookup from check identifier to
remediation text. -/
def actionText : String → Option String
  | "mrz_checksum" => some "Re-scan document with a sharper, glare-free MRZ image"
  | "passport_validity" => some "Confirm the passport expiry date and renew if needed"
  | "applicant_age" => some "Verify the date of birth on the document"
  | "visa_type_supported" => some "Choose a supported visa type"
  | "nationality_blacklist" => some "Escalate to a compliance officer"
  | "name_match" => some "Confirm the applicant name against the document"
  | "passport_number_match" => some "Confirm the passport number against the document"
  | _ => none

/-- Whether a check wants a remediation action (failing or warning). -/
def wantsAction (c : ValidationCheck) : Bool :=
  match c.status with
  | CheckStatus.fail => true
  | CheckStatus.warning => true
  | _ => false

/-- Drop duplicates keeping the first occurrence. -/
def dedupe (xs : List String) : List String :=
  xs.foldl (fun acc s => if s ∈ acc then acc else acc ++ [s]) []

/-- Modelled from the spec: one remediation per failing or warning check
in check order, with duplicates suppressed. -/
def recommendedActionsFor (checks : List ValidationCheck) : List String :=
  dedupe (checks.filterMap (fun c =>
    if wantsAction c then actionText c.id else none))

/-- Human-readable decision status used in the summary line. -/
def statusText : EligStatus → String
  | EligStatus.approved => "approved"
  | EligStatus.manual_review => "manual review"
  | EligStatus.rejected => "rejected"
  | EligStatus.unknown => "unknown"

/-- The summary line of the response. -/
def mkSummary (d : EligibilityDecision) (n : Nat) : String :=
  "Verification completed with decision " ++ statusText d.status ++
    " over " ++ toString n ++ " checks"

/-- Modelled from the spec: the single core operation evaluate — locate
and decode the MRZ, extract free-text fields, reconcile, validate,
decide, and assemble the response.  An entirely empty document set runs
no checks, so its decision is unknown (spec section 7).  The wall-clock
timing is produced outside the pure core and is passed in. -/
def evaluate (docs : List DocumentInput) (a : ApplicantProfile)
    (p : EligibilityPolicy) (timingMs : Nat) : VerificationResponse :=
  let mrz := bestMrz docs
  let fields := if docs.isEmpty then [] else reconcileAll mrz docs
  let checks := if docs.isEmpty then [] else runChecks mrz fields a p
  let decision := decideEligibility checks
  { summary := mkSummary decision checks.length
    overallConfidence := decision.confidence
    extractedFields := fields
    mrz := mrz
    barcodeData := some { raw := findFirst (fun d => d.decodedBarcodeText) docs }
    validationChecks := checks
    eligibility := decision
    recommendedActions := recommendedActionsFor checks
    rawOcrText := String.intercalate "\n"
      (docs.map (fun d => String.intercalate "\n" d.ocrText))
    timingMs := timingMs }

/-! ## Supporting lemmas for the pipeline invariants -/

theorem findFirst_eq_some {α β : Type} (f : α → Option β) (l : List α) (b : β)
    (h : findFirst f l = some b) : ∃ a ∈ l, f a = some b := by
  induction l with
  | nil => simp [findFirst] at h
  | cons a as ih =>
    cases hfa : f a with
    | none =>
      simp only [findFirst, hfa] at h
      obtain ⟨x, hx, hfx⟩ := ih h
      exact ⟨x, List.mem_cons_of_mem a hx, hfx⟩
    | some c =>
      simp only [findFirst, hfa, Option.some.injEq] at h
      subst h
      exact ⟨a, List.mem_cons_self a as, hfa⟩

theorem foldl_selectStep_mem (cands : List (ExtractedField × Bool)) :
    ∀ (acc : Option (ExtractedField × Bool)) (x : ExtractedField × Bool),
      cands.foldl selectStep acc = some x → acc = some x ∨ x ∈ cands := by
  induction cands with
  | nil =>
    intro acc x h
    exact Or.inl h
  | cons c cs ih =>
    intro acc x h
    rw [List.foldl_cons] at h
    rcases ih _ x h with hacc | hmem
    · cases acc with
      | none =>
        simp only [selectStep, fallthroughStep, Option.some.injEq] at hacc
        subst hacc
        exact Or.inr (List.mem_cons_self c cs)
      | some hi =>
        simp only [selectStep, fallthroughStep] at hacc
        split at hacc
        · simp only [Option.some.injEq] at hacc
          subst hacc
          exact Or.inr (List.mem_cons_self c cs)
        · exact Or.inl hacc
    · exact Or.inr (List.mem_cons_of_mem c hmem)

theorem selectCandidate_mem (cands : List (ExtractedField × Bool))
    (x : ExtractedField × Bool) (h : selectCandidate cands = some x) :
    x ∈ cands := by
  rcases foldl_selectStep_mem cands none x h with h1 | h2
  · exact Option.noConfusion h1
  · exact h2

theorem foldl_pickStep_mem (rs : List MrzResult) :
    ∀ (acc : Option MrzResult) (r : MrzResult),
      rs.foldl pickStep acc = some r → acc = some r ∨ r ∈ rs := by
  induction rs with
  | nil =>
    intro acc r h
    exact Or.inl h
  | cons a as ih =>
    intro acc r h
    rw [List.foldl_cons] at h
    rcases ih _ r h with hacc | hmem
    · cases acc with
      | none =>
        simp only [pickStep, Option.some.injEq] at hacc
        subst hacc
        exact Or.inr (List.mem_cons_self a as)
      | some b =>
        simp only [pickStep] at hacc
        split at hacc
        · simp only [Option.some.injEq] at hacc
          subst hacc
          exact Or.inr (List.mem_cons_self a as)
        · exact Or.inl hacc
    · exact Or.inr (List.mem_cons_of_mem a hmem)

theorem pickBestMrz_mem (rs : List MrzResult) (r : MrzResult)
    (h : pickBestMrz rs = some r) : r ∈ rs := by
  rcases foldl_pickStep_mem rs none r h with h1 | h2
  · exact Option.noConfusion h1
  · exact h2

theorem decodeTD3_fields (l1 l2 fid : String) (f : ExtractedField)
    (h : (fid, f) ∈ (decodeTD3 l1 l2).fields) :
    f.source = FieldSource.mrz ∧
    (f.confidence = 100 ∨ (f.confidence ≤ 40 ∧ f.value ≠ none)) := by
  have hmk : ∀ (fi v : String) (b : Bool),
      (mkMrzField fi v b).source = FieldSource.mrz ∧
      ((mkMrzField fi v b).confidence = 100 ∨
        ((mkMrzField fi v b).confidence ≤ 40 ∧
          (mkMrzField fi v b).value ≠ none)) := by
    intro fi v b
    cases b <;> simp [mkMrzField, mrzFieldConfidence]
  simp only [decodeTD3, List.mem_cons, List.not_mem_nil, or_false,
    Prod.mk.injEq] at h
  rcases h with ⟨h1, h2⟩ | ⟨h1, h2⟩ | ⟨h1, h2⟩ | ⟨h1, h2⟩ | ⟨h1, h2⟩ |
    ⟨h1, h2⟩ | ⟨h1, h2⟩ | ⟨h1, h2⟩ | ⟨h1, h2⟩ | ⟨h1, h2⟩
  all_goals subst h2
  all_goals exact hmk _ _ _

theorem decodeRun_fields (run : List String) (fid : String) (f : ExtractedField)
    (h : (fid, f) ∈ (decodeRun run).fields) :
    f.source = FieldSource.mrz ∧
    (f.confidence = 100 ∨ (f.confidence ≤ 40 ∧ f.value ≠ none)) := by
  unfold decodeRun at h
  split at h
  · exact decodeTD3_fields _ _ _ _ h
  · simp at h

theorem bestMrz_fields (docs : List DocumentInput) (r : MrzResult)
    (hr : bestMrz docs = some r) (fid : String) (f : ExtractedField)
    (h : (fid, f) ∈ r.fields) :
    f.source = FieldSource.mrz ∧
    (f.confidence = 100 ∨ (f.confidence ≤ 40 ∧ f.value ≠ none)) := by
  unfold bestMrz at hr
  have hmem := pickBestMrz_mem _ _ hr
  rw [List.mem_filterMap] at hmem
  obtain ⟨d, _, hd⟩ := hmem
  unfold locateMrz at hd
  have hmem2 := pickBestMrz_mem _ _ hd
  rw [List.mem_map] at hmem2
  obtain ⟨run, _, hrun⟩ := hmem2
  exact decodeRun_fields run fid f (by rw [hrun]; exact h)

theorem ocrConfidence_le (ls : Nat) (tok : Option Nat) :
    ocrConfidence ls tok ≤ 100 := by
  cases tok with
  | none =>
    simp only [ocrConfidence, normalizeConf]
    exact Nat.min_le_right ls 100
  | some t =>
    simp only [ocrConfidence, normalizeConf]
    exact Nat.le_trans (Nat.min_le_left _ _) (Nat.min_le_right ls 100)

theorem ocrFieldFromDoc_conf (doc : DocumentInput) (fid : String)
    (syns : List String) (f : ExtractedField)
    (h : ocrFieldFromDoc doc fid syns = some f) : f.confidence ≤ 100 := by
  unfold ocrFieldFromDoc at h
  obtain ⟨line, _, h2⟩ := findFirst_eq_some _ _ _ h
  obtain ⟨syn, _, h3⟩ := findFirst_eq_some _ _ _ h2
  cases hv : afterLabel line syn with
  | none =>
    simp only [hv] at h3
    exact Option.noConfusion h3
  | some v =>
    simp only [hv, Option.some.injEq] at h3
    rw [← h3]
    exact ocrConfidence_le _ _

theorem ocrCandidate_conf (docs : List DocumentInput) (fid : String)
    (f : ExtractedField) (h : ocrCandidate docs fid = some f) :
    f.confidence ≤ 100 := by
  unfold ocrCandidate at h
  split at h
  · obtain ⟨d, _, hd⟩ := findFirst_eq_some _ _ _ h
    exact ocrFieldFromDoc_conf _ _ _ _ hd
  · exact Option.noConfusion h

theorem lookupField_mem (fields : List (String × ExtractedField)) (fid : String)
    (g : ExtractedField) (h : lookupField fields fid = some g) :
    ∃ k, (k, g) ∈ fields := by
  unfold lookupField at h
  cases hf : fields.find? (fun p => p.1 == fid) with
  | none =>
    rw [hf] at h
    exact Option.noConfusion h
  | some p =>
    obtain ⟨k, v⟩ := p
    rw [hf] at h
    have hvg : v = g := by simpa using h
    have hp := List.mem_of_find?_eq_some hf
    exact ⟨k, by rw [← hvg]; exact hp⟩

theorem candidatesFor_conf (docs : List DocumentInput) (fid : String)
    (c : ExtractedField × Bool)
    (hc : c ∈ candidatesFor (bestMrz docs) docs fid) : c.1.confidence ≤ 100 := by
  unfold candidatesFor at hc
  rw [List.mem_append] at hc
  rcases hc with hm | ho
  · cases hb : bestMrz docs with
    | none =>
      rw [hb] at hm
      simp at hm
    | some r =>
      rw [hb] at hm
      cases hl : lookupField r.fields fid with
      | none => simp [hl] at hm
      | some g =>
        simp only [hl, List.mem_singleton] at hm
        subst hm
        obtain ⟨k, hk⟩ := lookupField_mem _ _ _ hl
        rcases (bestMrz_fields docs r hb k g hk).2 with h1 | h2
        · simp [h1]
        · exact Nat.le_trans h2.1 (by norm_num)
  · cases ho2 : ocrCandidate docs fid with
    | none => simp [ho2] at ho
    | some g =>
      simp only [ho2, List.mem_singleton] at ho
      subst ho
      exact ocrCandidate_conf _ _ _ ho2

theorem reconcileField_conf_le (fid : String)
    (cands : List (ExtractedField × Bool))
    (hc : ∀ c ∈ cands, c.1.confidence ≤ 100) :
    (reconcileField fid cands).confidence ≤ 100 := by
  cases hsel : selectCandidate cands with
  | none => simp [reconcileField, hsel]
  | some sel =>
    simp only [reconcileField, hsel]
    split
    · exact hc sel (selectCandidate_mem _ _ hsel)
    · simp only [boostConfidence]
      exact Nat.min_le_left _ _

theorem evaluate_field_conf (docs : List DocumentInput) (a : ApplicantProfile)
    (p : EligibilityPolicy) (t : Nat) (fid : String) (f : ExtractedField)
    (h : (fid, f) ∈ (evaluate docs a p t).extractedFields) :
    f.confidence ≤ 100 := by
  have hh : (fid, f) ∈
      (if docs.isEmpty then [] else reconcileAll (bestMrz docs) docs) := h
  by_cases hd : docs.isEmpty
  · rw [if_pos hd] at hh
    exact absurd hh (List.not_mem_nil _)
  · rw [if_neg hd] at hh
    unfold reconcileAll at hh
    rw [List.mem_map] at hh
    obtain ⟨fid2, _, heq⟩ := hh
    rw [Prod.mk.injEq] at heq
    rw [← heq.2]
    exact reconcileField_conf_le _ _
      (fun c hc => candidatesFor_conf docs fid2 c hc)

/-- C4: every extracted field in the assembled response has confidence in
0 to 100, and every MRZ-sourced field of the decoded block is
binary-checksum-gated — confidence exactly 100 under a valid covering
checksum and at most 40 under an invalid one, with the decoded value
kept rather than discarded. -/
theorem mrz_confidence_binary (docs : List DocumentInput) (a : ApplicantProfile)
    (p : EligibilityPolicy) (t : Nat) :
    (∀ fid f, (fid, f) ∈ (evaluate docs a p t).extractedFields →
      f.confidence ≤ 100) ∧
    (∀ r, (evaluate docs a p t).mrz = some r →
      ∀ fid f, (fid, f) ∈ r.fields →
        f.source = FieldSource.mrz ∧
        (f.confidence = 100 ∨ (f.confidence ≤ 40 ∧ f.value ≠ none))) ∧
    (∀ (fid v : String) (valid : Bool),
      (valid = true → (mkMrzField fid v valid).confidence = 100) ∧
      (valid = false → (mkMrzField fid v valid).confidence ≤ 40) ∧
      (mkMrzField fid v valid).value = some v) := by
  refine ⟨?_, ?_, ?_⟩
  · intro fid f h
    exact evaluate_field_conf docs a p t fid f h
  · intro r hr fid f h
    exact bestMrz_fields docs r hr fid f h
  · intro fid v valid
    cases valid <;> simp [mkMrzField, mrzFieldConfidence]

/-- Concrete instance of C4: an MRZ field under a failed covering checksum
carries confidence at most 40 and keeps its decoded value. -/
theorem mrz_confidence_binary_witness :
    (mkMrzField "documentNumber" "L898902C3" false).confidence ≤ 40 ∧
    (mkMrzField "documentNumber" "L898902C3" false).value = some "L898902C3" :=
  ⟨((mrz_confidence_binary [] ⟨"", "", "", "", "", ""⟩
      ⟨0, 0, [], [], false, false⟩ 0).2.2 "documentNumber" "L898902C3"
      false).2.1 rfl,
   ((mrz_confidence_binary [] ⟨"", "", "", "", "", ""⟩
      ⟨0, 0, [], [], false, false⟩ 0).2.2 "documentNumber" "L898902C3"
      false).2.2⟩

/-- C5: evaluate is total over its contract — it always returns a
structured response, and an entirely empty input set surfaces as a
decision of status unknown with no executed checks rather than a
failure. -/
theorem evaluate_total (docs : List DocumentInput) (a : ApplicantProfile)
    (p : EligibilityPolicy) (t : Nat) :
    (∃ r : VerificationResponse, evaluate docs a p t = r) ∧
    (docs = [] →
      (evaluate docs a p t).validationChecks = [] ∧
      (evaluate docs a p t).eligibility.status = EligStatus.unknown) := by
  refine ⟨⟨evaluate docs a p t, rfl⟩, ?_⟩
  intro h
  subst h
  exact ⟨rfl, rfl⟩

/-- Concrete instance of C5: the empty document set yields the unknown
decision. -/
theorem evaluate_total_witness :
    (evaluate [] ⟨"Alex Johnson", "1992-04-14", "K1234567", "USA", "tourist",
        "2025-06-01"⟩
      ⟨180, 18, ["tourist", "business", "student"], [], true, true⟩
      0).validationChecks = [] ∧
    (evaluate [] ⟨"Alex Johnson", "1992-04-14", "K1234567", "USA", "tourist",
        "2025-06-01"⟩
      ⟨180, 18, ["tourist", "business", "student"], [], true, true⟩
      0).eligibility.status = EligStatus.unknown :=
  (evaluate_total [] ⟨"Alex Johnson", "1992-04-14", "K1234567", "USA",
      "tourist", "2025-06-01"⟩
    ⟨180, 18, ["tourist", "business", "student"], [], true, true⟩ 0).2 rfl

/-- C6: evaluate is deterministic — two runs on the same documents,
applicant and policy agree on every component of the response except
timingMs, which is supplied from outside the pure core. -/
theorem evaluate_deterministic (docs : List DocumentInput)
    (a : ApplicantProfile) (p : EligibilityPolicy) (t u : Nat) :
    (evaluate docs a p t).summary = (evaluate docs a p u).summary ∧
    (evaluate docs a p t).overallConfidence =
      (evaluate docs a p u).overallConfidence ∧
    (evaluate docs a p t).extractedFields =
      (evaluate docs a p u).extractedFields ∧
    (evaluate docs a p t).mrz = (evaluate docs a p u).mrz ∧
    (evaluate docs a p t).barcodeData = (evaluate docs a p u).barcodeData ∧
    (evaluate docs a p t).validationChecks =
      (evaluate docs a p u).validationChecks ∧
    (evaluate docs a p t).eligibility = (evaluate docs a p u).eligibility ∧
    (evaluate docs a p t).recommendedActions =
      (evaluate docs a p u).recommendedActions ∧
    (evaluate docs a p t).rawOcrText = (evaluate docs a p u).rawOcrText :=
  ⟨rfl, rfl, rfl, rfl, rfl, rfl, rfl, rfl, rfl⟩

/-! ## HTTP layer (app/src/app/api/verify/route.ts) -/

/-- An uploaded file as seen through the multipart form data. -/
structure UploadedFile where
  name : String
  size : Nat
deriving DecidableEq, Repr

/-- One form-data entry: a file or a string value. -/
inductive FormEntry
  | file (f : UploadedFile)
  | str (s : String)
deriving DecidableEq, Repr

/-- The parsed multipart form of one request; getAll on the documents key
gives the entry list and get on the other keys gives the first entry when
any. -/
structure FormData where
  documents : List FormEntry
  applicant : Option FormEntry
  policy : Option FormEntry
deriving DecidableEq, Repr

/-- A policy payload with every field optional, mirroring the element
type of the JSON.parse cast in the route. -/
structure PolicyOverrides where
  minPassportValidityDays : Option Nat
  minApplicantAge : Option Nat
  supportedVisaTypes : Option (List String)
  blacklistedNationalities : Option (List String)
  requireNameMatch : Option Bool
  requirePassportMatch : Option Bool
deriving DecidableEq, Repr

/-- The object-spread merge of the fallback policy with the parsed
overrides, mirroring the spread expression in the route. -/
def mergePolicy (base : EligibilityPolicy) (o : PolicyOverrides) :
    EligibilityPolicy :=
  { minPassportValidityDays :=
      o.minPassportValidityDays.getD base.minPassportValidityDays
    minApplicantAge := o.minApplicantAge.getD base.minApplicantAge
    supportedVisaTypes := o.supportedVisaTypes.getD base.supportedVisaTypes
    blacklistedNationalities :=
      o.blacklistedNationalities.getD base.blacklistedNationalities
    requireNameMatch := o.requireNameMatch.getD base.requireNameMatch
    requirePassportMatch := o.requirePassportMatch.getD base.requirePassportMatch }

/-- The fallback policy constant of the route. -/
def FALLBACK_POLICY : EligibilityPolicy :=
  { minPassportValidityDays := 180
    minApplicantAge := 18
    supportedVisaTypes := ["tourist", "business", "student"]
    blacklistedNationalities := []
    requireNameMatch := true
    requirePassportMatch := true }

/-- A JSON response body: an error object or a verification result. -/
inductive JsonBody
  | errorBody (msg : String)
  | resultBody (r : VerificationResponse)
deriving DecidableEq, Repr

/-- An HTTP response with its status code and JSON body. -/
structure HttpResponse where
  status : Nat
  body : JsonBody
deriving DecidableEq, Repr

/-- The arguments of one verifyDocuments invocation. -/
structure VerifyCall where
  files : List UploadedFile
  applicant : ApplicantProfile
  policy : EligibilityPolicy
deriving DecidableEq, Repr

/-- The observable outcome of one POST request: the response together
with the verifyDocuments invocation when one happened. -/
structure PostResult where
  response : HttpResponse
  verifyCall : Option VerifyCall
deriving DecidableEq, Repr

/-- The nonempty uploaded files among the documents entries, mirroring
the instanceof-File and positive-size filter of the route. -/
def nonemptyFiles (entries : List FormEntry) : List UploadedFile :=
  entries.filterMap (fun e =>
    match e with
    | FormEntry.file f => if 0 < f.size then some f else none
    | FormEntry.str _ => none)

/-- The POST handler of the route, embedded over oracles for the JSON
parsers and the verification engine, which live outside the route.  A
thrown error is modelled by the Except error of the form-data acquisition
or of verifyDocuments and is caught into a 500 response carrying the
error message, exactly as the try-catch of the route does.  JavaScript
falsiness of the empty string in the payload guards is modelled
explicitly. -/
def POST (fallback : EligibilityPolicy)
    (parseApplicant : String → Option ApplicantProfile)
    (parsePolicy : String → Option PolicyOverrides)
    (verify : List UploadedFile → ApplicantProfile → EligibilityPolicy →
      Except String VerificationResponse)
    (fd : Except String FormData) : PostResult :=
  match fd with
  | Except.error e => ⟨⟨500, JsonBody.errorBody e⟩, none⟩
  | Except.ok form =>
    let files := nonemptyFiles form.documents
    if files.isEmpty then
      ⟨⟨400, JsonBody.errorBody "No document files were uploaded"⟩, none⟩
    else
      match form.applicant with
      | some (FormEntry.str s) =>
        if s = "" then
          ⟨⟨400, JsonBody.errorBody "Applicant payload missing"⟩, none⟩
        else
          match parseApplicant s with
          | none =>
            ⟨⟨400, JsonBody.errorBody "Invalid applicant payload"⟩, none⟩
          | some applicant =>
            let policy :=
              match form.policy with
              | some (FormEntry.str ps) =>
                if ps = "" then fallback
                else
                  match parsePolicy ps with
                  | some o => mergePolicy fallback o
                  | none => fallback
              | _ => fallback
            match verify files applicant policy with
            | Except.ok result =>
              ⟨⟨200, JsonBody.resultBody result⟩,
                some ⟨files, applicant, policy⟩⟩
            | Except.error e =>
              ⟨⟨500, JsonBody.errorBody e⟩, some ⟨files, applicant, policy⟩⟩
      | _ => ⟨⟨400, JsonBody.errorBody "Applicant payload missing"⟩, none⟩

/-- Server-side state visible across requests; the route module holds no
mutable bindings, so the only cross-request datum is the fallback policy
constant, threaded explicitly so that the frame property is a theorem
rather than a convention. -/
structure ServerState where
  fallbackPolicy : EligibilityPolicy
deriving DecidableEq, Repr

/-- Handle one request against the server state; the route never writes
any module state, so the state comes back unchanged. -/
def handleRequest (parseApplicant : String → Option ApplicantProfile)
    (parsePolicy : String → Option PolicyOverrides)
    (verify : List UploadedFile → ApplicantProfile → EligibilityPolicy →
      Except String VerificationResponse)
    (s : ServerState) (fd : Except String FormData) :
    PostResult × ServerState :=
  (POST s.fallbackPolicy parseApplicant parsePolicy verify fd, s)

/-- Process a sequence of requests from an initial state. -/
def processRequests (parseApplicant : String → Option ApplicantProfile)
    (parsePolicy : String → Option PolicyOverrides)
    (verify : List UploadedFile → ApplicantProfile → EligibilityPolicy →
      Except String VerificationResponse)
    (s : ServerState) :
    List (Except String FormData) → List PostResult × ServerState
  | [] => ([], s)
  | fd :: rest =>
    let r := handleRequest parseApplicant parsePolicy verify s fd
    let rs := processRequests parseApplicant parsePolicy verify r.2 rest
    (r.1 :: rs.1, rs.2)

/-- C9: a request whose documents entries are all empty files (or absent
altogether) is rejected with a 400 no-documents error and verifyDocuments
is never invoked. -/
theorem post_rejects_empty_uploads (fallback : EligibilityPolicy)
    (pa : String → Option ApplicantProfile)
    (pp : String → Option PolicyOverrides)
    (verify : List UploadedFile → ApplicantProfile → EligibilityPolicy →
      Except String VerificationResponse)
    (form : FormData)
    (h : ∀ e ∈ form.documents, ∃ f, e = FormEntry.file f ∧ f.size = 0) :
    POST fallback pa pp verify (Except.ok form) =
      ⟨⟨400, JsonBody.errorBody "No document files were uploaded"⟩, none⟩ := by
  have hfiles : nonemptyFiles form.documents = [] := by
    unfold nonemptyFiles
    rw [List.filterMap_eq_nil_iff]
    intro e he
    obtain ⟨f, rfl, hsz⟩ := h e he
    simp [hsz]
  simp [POST, hfiles]

/-- Concrete instance of C9: one empty file is filtered out and the
request is rejected before verification. -/
theorem post_rejects_empty_uploads_witness :
    POST FALLBACK_POLICY (fun _ => none) (fun _ => none)
      (fun _ _ _ => Except.error "unreachable")
      (Except.ok ⟨[FormEntry.file ⟨"doc.png", 0⟩], none, none⟩) =
      ⟨⟨400, JsonBody.errorBody "No document files were uploaded"⟩, none⟩ :=
  post_rejects_empty_uploads FALLBACK_POLICY (fun _ => none) (fun _ => none)
    (fun _ _ _ => Except.error "unreachable")
    ⟨[FormEntry.file ⟨"doc.png", 0⟩], none, none⟩
    (by
      intro e he
      simp only [List.mem_singleton] at he
      exact ⟨⟨"doc.png", 0⟩, he, rfl⟩)

/-- C8: the policy is per-request and read-only — handling any request
returns the server state unchanged, processing any request sequence
leaves the state equal to the initial state, and the fallback policy
constant observed afterwards is still FALLBACK_POLICY. -/
theorem fallback_policy_frame (pa : String → Option ApplicantProfile)
    (pp : String → Option PolicyOverrides)
    (verify : List UploadedFile → ApplicantProfile → EligibilityPolicy →
      Except String VerificationResponse) :
    (∀ (s : ServerState) (fd : Except String FormData),
      (handleRequest pa pp verify s fd).2 = s) ∧
    (∀ (reqs : List (Except String FormData)) (s : ServerState),
      (processRequests pa pp verify s reqs).2 = s) ∧
    (∀ reqs : List (Except String FormData),
      (processRequests pa pp verify ⟨FALLBACK_POLICY⟩ reqs).2.fallbackPolicy =
        FALLBACK_POLICY) := by
  have h2 : ∀ (reqs : List (Except String FormData)) (s : ServerState),
      (processRequests pa pp verify s reqs).2 = s := by
    intro reqs
    induction reqs with
    | nil => intro s; rfl
    | cons fd rest ih =>
      intro s
      simp only [processRequests, handleRequest]
      exact ih s
  exact ⟨fun s fd => rfl, h2, fun reqs => by rw [h2 reqs ⟨FALLBACK_POLICY⟩]⟩

/-- C7: malformed payloads are handled at the HTTP layer — a malformed
applicant payload yields a 400 with no verifyDocuments call, a malformed
policy payload never reaches the core because the call made instead
carries the fallback policy, and missing optional policy fields are
treated as absent by falling back per field. -/
theorem malformed_payloads_handled (fallback : EligibilityPolicy)
    (pa : String → Option ApplicantProfile)
    (pp : String → Option PolicyOverrides)
    (verify : List UploadedFile → ApplicantProfile → EligibilityPolicy →
      Except String VerificationResponse)
    (form : FormData) :
    (∀ s, form.applicant = some (FormEntry.str s) → pa s = none →
      (POST fallback pa pp verify (Except.ok form)).response.status = 400 ∧
      (POST fallback pa pp verify (Except.ok form)).verifyCall = none) ∧
    (∀ ps call, form.policy = some (FormEntry.str ps) → pp ps = none →
      (POST fallback pa pp verify (Except.ok form)).verifyCall = some call →
      call.policy = fallback) ∧
    (∀ o : PolicyOverrides,
      (o.minPassportValidityDays = none →
        (mergePolicy fallback o).minPassportValidityDays =
          fallback.minPassportValidityDays) ∧
      (o.minApplicantAge = none →
        (mergePolicy fallback o).minApplicantAge = fallback.minApplicantAge) ∧
      (o.supportedVisaTypes = none →
        (mergePolicy fallback o).supportedVisaTypes =
          fallback.supportedVisaTypes) ∧
      (o.blacklistedNationalities = none →
        (mergePolicy fallback o).blacklistedNationalities =
          fallback.blacklistedNationalities) ∧
      (o.requireNameMatch = none →
        (mergePolicy fallback o).requireNameMatch =
          fallback.requireNameMatch) ∧
      (o.requirePassportMatch = none →
        (mergePolicy fallback o).requirePassportMatch =
          fallback.requirePassportMatch)) := by
  refine ⟨?_, ?_, ?_⟩
  · intro s hs hps
    by_cases hf : (nonemptyFiles form.documents).isEmpty = true
    · constructor <;> simp [POST, hf]
    · by_cases hs0 : s = ""
      · constructor <;> simp [POST, hf, hs, hs0]
      · constructor <;> simp [POST, hf, hs, hs0, hps]
  · intro ps call hpol hpp hcall
    obtain ⟨cf, ca, cp⟩ := call
    by_cases hf : (nonemptyFiles form.documents).isEmpty = true
    · simp [POST, hf] at hcall
    · rcases hap : form.applicant with _ | (f | s)
      · simp [POST, hf, hap] at hcall
      · simp [POST, hf, hap] at hcall
      · by_cases hs0 : s = ""
        · simp [POST, hf, hap, hs0] at hcall
        · rcases hpa : pa s with _ | applicant
          · simp [POST, hf, hap, hs0, hpa] at hcall
          · by_cases hps0 : ps = ""
            · revert hcall
              simp [POST, hf, hap, hs0, hpa, hpol, hpp, hps0]
              split
              all_goals
                intro hcall
                first
                | exact Option.noConfusion hcall
                | exact hcall.2.2.symm
                | (simp only [Option.some.injEq, VerifyCall.mk.injEq] at hcall
                   exact hcall.2.2.symm)
            · revert hcall
              simp [POST, hf, hap, hs0, hpa, hpol, hpp, hps0]
              split
              all_goals
                intro hcall
                first
                | exact Option.noConfusion hcall
                | exact hcall.2.2.symm
                | (simp only [Option.some.injEq, VerifyCall.mk.injEq] at hcall
                   exact hcall.2.2.symm)
  · intro o
    refine ⟨?_, ?_, ?_, ?_, ?_, ?_⟩ <;> intro h <;> simp [mergePolicy, h]

/-- Concrete instance of C7: an unparsable applicant payload yields a 400
and no verification call. -/
theorem malformed_payloads_handled_witness :
    (POST FALLBACK_POLICY (fun _ => none) (fun _ => none)
      (fun _ _ _ => Except.error "unreachable")
      (Except.ok ⟨[FormEntry.file ⟨"doc.png", 5⟩],
        some (FormEntry.str "bad json"), none⟩)).response.status = 400 ∧
    (POST FALLBACK_POLICY (fun _ => none) (fun _ => none)
      (fun _ _ _ => Except.error "unreachable")
      (Except.ok ⟨[FormEntry.file ⟨"doc.png", 5⟩],
        some (FormEntry.str "bad json"), none⟩)).verifyCall = none :=
  (malformed_payloads_handled FALLBACK_POLICY (fun _ => none) (fun _ => none)
    (fun _ _ _ => Except.error "unreachable")
    ⟨[FormEntry.file ⟨"doc.png", 5⟩], some (FormEntry.str "bad json"),
      none⟩).1 "bad json" rfl rfl

/-- C10: the handler never propagates an exception — every request gets a
structured JSON response with status 200, 400 or 500; an error thrown
while acquiring the form data is caught into a 500 error body, and an
error thrown by verifyDocuments is caught into a 500 error body carrying
the message. -/
theorem post_catches_errors (fallback : EligibilityPolicy)
    (pa : String → Option ApplicantProfile)
    (pp : String → Option PolicyOverrides)
    (verify : List UploadedFile → ApplicantProfile → EligibilityPolicy →
      Except String VerificationResponse)
    (fd : Except String FormData) :
    ((POST fallback pa pp verify fd).response.status = 200 ∨
     (POST fallback pa pp verify fd).response.status = 400 ∨
     (POST fallback pa pp verify fd).response.status = 500) ∧
    (∀ e, fd = Except.error e →
      POST fallback pa pp verify fd = ⟨⟨500, JsonBody.errorBody e⟩, none⟩) ∧
    (∀ call, (POST fallback pa pp verify fd).verifyCall = some call →
      ∀ e, verify call.files call.applicant call.policy = Except.error e →
      (POST fallback pa pp verify fd).response =
        ⟨500, JsonBody.errorBody e⟩) := by
  refine ⟨?_, ?_, ?_⟩
  · cases fd with
    | error e => simp [POST]
    | ok form =>
      by_cases hf : (nonemptyFiles form.documents).isEmpty = true
      · simp [POST, hf]
      · rcases hap : form.applicant with _ | (f | s)
        · simp [POST, hf, hap]
        · simp [POST, hf, hap]
        · by_cases hs0 : s = ""
          · simp [POST, hf, hap, hs0]
          · rcases hpa : pa s with _ | applicant
            · simp [POST, hf, hap, hs0, hpa]
            · simp [POST, hf, hap, hs0, hpa]
              split <;> simp
  · intro e he
    subst he
    rfl
  · intro call hcall e hv2
    obtain ⟨cf, ca, cp⟩ := call
    cases fd with
    | error eb => simp [POST] at hcall
    | ok form =>
      by_cases hf : (nonemptyFiles form.documents).isEmpty = true
      · simp [POST, hf] at hcall
      · rcases hap : form.applicant with _ | (f | s)
        · simp [POST, hf, hap] at hcall
        · simp [POST, hf, hap] at hcall
        · by_cases hs0 : s = ""
          · simp [POST, hf, hap, hs0] at hcall
          · rcases hpa : pa s with _ | applicant
            · simp [POST, hf, hap, hs0, hpa] at hcall
            · revert hcall
              simp [POST, hf, hap, hs0, hpa]
              split
              · rename_i r heq
                intro hcall
                simp only [Option.some.injEq, VerifyCall.mk.injEq] at hcall
                rw [← hcall.1, ← hcall.2.1, ← hcall.2.2] at hv2
                rw [heq] at hv2
                exact Except.noConfusion hv2
              · rename_i eb heq
                intro hcall
                simp only [Option.some.injEq, VerifyCall.mk.injEq] at hcall
                rw [← hcall.1, ← hcall.2.1, ← hcall.2.2] at hv2
                rw [heq] at hv2
                injection hv2 with hbe
                rw [hbe]

/-- Concrete instance of C10: a failure while reading the form data is
returned as a structured 500 error response. -/
theorem post_catches_errors_witness :
    POST FALLBACK_POLICY (fun _ => none) (fun _ => none)
      (fun _ _ _ => Except.error "boom") (Except.error "network failure") =
      ⟨⟨500, JsonBody.errorBody "network failure"⟩, none⟩ :=
  (post_catches_errors FALLBACK_POLICY (fun _ => none) (fun _ => none)
    (fun _ _ _ => Except.error "boom")
    (Except.error "network failure")).2.1 "network failure" rfl

end DocVerifier
